import Mathlib

/-!
Verification of the real-time edge-detection pipeline (web viewer).

The data model and the driver logic (frame dispatch, backend selection,
algorithm selection, per-frame error handling) are translated from
`src/app.ts` and from the OpenCV wrapper (`opencv-processor`).  The
numeric operator bodies (the reference `EdgeDetector` implementation and
the external OpenCV primitives) are not part of the repository snapshot;
they are modelled from the specification, as marked on each definition.
Machine 8-bit samples are `Nat` with explicit clamping to `[0, 255]`;
internal float values are `ℚ` with explicit rounding on emission.
-/

namespace EdgeDetection

/-- An RGBA pixel buffer: `width * height` pixels, four 8-bit samples per
pixel, row-major, as produced by `getImageData` / consumed by the
renderer (`ImageData` in the source). -/
structure ImageData where
  width : Nat
  height : Nat
  data : List Nat
deriving DecidableEq, Repr

/-- Buffer invariant from the spec, §3: the sample array length exactly
matches `width * height * channels` with four channels. -/
def ImageData.valid (img : ImageData) : Prop :=
  img.data.length = img.width * img.height * 4

instance (img : ImageData) : Decidable img.valid := by
  unfold ImageData.valid
  exact inferInstance

/-- A single-channel (grayscale/intensity) buffer of 8-bit samples. -/
structure GrayBuffer where
  width : Nat
  height : Nat
  data : List Nat
deriving DecidableEq, Repr

/-- A single-channel buffer of exact rational values (the float-valued
intermediate stage of the convolution engine, spec §4.2). -/
structure QBuffer where
  width : Nat
  height : Nat
  data : List ℚ
deriving DecidableEq, Repr

/-- Replicate-edge border policy (spec §4.2): an out-of-range coordinate
is clamped to the nearest valid index. -/
def clampIdx (i : Int) (n : Nat) : Nat :=
  (max 0 (min i (Int.ofNat n - 1))).toNat

/-- Sample a grayscale buffer at signed coordinates with replicate-edge
extension. -/
def GrayBuffer.sample (g : GrayBuffer) (x y : Int) : Nat :=
  g.data.getD (clampIdx y g.height * g.width + clampIdx x g.width) 0

/-- Sample a rational buffer at signed coordinates with replicate-edge
extension. -/
def QBuffer.sample (q : QBuffer) (x y : Int) : ℚ :=
  q.data.getD (clampIdx y q.height * q.width + clampIdx x q.width) 0

/-- Sample `c` (0 = R, 1 = G, 2 = B, 3 = A) of pixel `i` of an RGBA
buffer. -/
def ImageData.pixel (img : ImageData) (i c : Nat) : Nat :=
  img.data.getD (4 * i + c) 0

/-- Modelled from the spec (§4.1): fixed luma weighting for grayscale
extraction, ITU-R BT.601 weights (0.299, 0.587, 0.114), rounded to the
nearest 8-bit value and clamped (the reference `EdgeDetector` source
file is absent from the snapshot). -/
def luma601 (r g b : Nat) : Nat :=
  min 255 ((299 * r + 587 * g + 114 * b + 500) / 1000)

/-- Modelled from the spec (§4.1): RGBA-to-grayscale conversion using the
pinned luma weights. -/
def toGrayscale (img : ImageData) : GrayBuffer :=
  { width := img.width, height := img.height,
    data := (List.range (img.width * img.height)).map (fun i =>
      luma601 (img.pixel i 0) (img.pixel i 1) (img.pixel i 2)) }

/-- Emit a single-channel buffer as grayscale-replicated RGBA with opaque
alpha (spec §4.3 "emit as grayscale-replicated RGBA"). -/
def grayToRGBA (g : GrayBuffer) : ImageData :=
  { width := g.width, height := g.height,
    data := (List.range (g.width * g.height * 4)).map (fun j =>
      if j % 4 = 3 then 255 else g.data.getD (j / 4) 0) }

/-- 8-bit emission of an internal rational value: round to nearest, clamp
to `[0, 255]` (spec §4.2 "clamped/rounded to 8-bit on final emission"). -/
def emit8 (q : ℚ) : Nat :=
  min 255 (max 0 (round q)).toNat

/-- Absolute value then 8-bit saturation (the semantics of OpenCV
`convertScaleAbs` at the wrapper's default scale, modelled from the
spec's accelerated-collaborator interface, §6). -/
def absSat8 (q : ℚ) : Nat :=
  min 255 (round |q|).toNat

/-- Equal-weight blend of two 8-bit values (the semantics of OpenCV
`addWeighted` with weights 0.5/0.5 and offset 0, as invoked by the
wrapper's Sobel path). -/
def addWeightedHalf (a b : Nat) : Nat :=
  emit8 ((1 / 2 : ℚ) * a + (1 / 2 : ℚ) * b)

/-- Round a rational buffer down to an 8-bit grayscale buffer. -/
def QBuffer.emit (q : QBuffer) : GrayBuffer :=
  ⟨q.width, q.height, q.data.map emit8⟩

/-- Modelled from the spec (§4.2): apply a square kernel to a
single-channel buffer: for each output pixel the weighted sum of the
kernel over the corresponding window, replicate-edge border. -/
def convolveNat (g : GrayBuffer) (k : List (List ℚ)) : QBuffer :=
  let n := k.length
  let c := n / 2
  { width := g.width, height := g.height,
    data := (List.range (g.width * g.height)).map (fun i =>
      let x : Int := Int.ofNat (i % g.width)
      let y : Int := Int.ofNat (i / g.width)
      ((List.range n).map (fun ky =>
        ((List.range n).map (fun kx =>
          (k.getD ky []).getD kx 0 *
            (g.sample (x + Int.ofNat kx - Int.ofNat c)
                      (y + Int.ofNat ky - Int.ofNat c) : ℚ))).sum)).sum) }

/-- Truncated Taylor series for the exponential over ℚ (executable
rational approximation of the normal-distribution coefficients the spec
prescribes for the Gaussian kernel, §4.3). -/
def expQ (x : ℚ) : ℚ :=
  ((List.range 8).map (fun k => x ^ k / (Nat.factorial k : ℚ))).sum

/-- Modelled from the spec (§4.3): σ derived from the blur radius. -/
def gaussSigma (r : Nat) : ℚ :=
  ((r : ℚ) + 1) / 2

/-- Modelled from the spec (§4.3): separable 1-D Gaussian kernel of the
given radius, coefficients computed from a normal distribution and
normalized to sum to 1 (the reference `EdgeDetector` source file is
absent from the snapshot). -/
def gaussKernel1D (r : Nat) : List ℚ :=
  let w := (List.range (2 * r + 1)).map (fun j =>
    let d : Int := Int.ofNat j - Int.ofNat r
    expQ (-(((d * d : Int) : ℚ) / (2 * gaussSigma r ^ 2))))
  let s := w.sum
  w.map (· / s)

/-- Value of one output pixel of the horizontal 1-D Gaussian pass. -/
def blurHAt (r : Nat) (g : GrayBuffer) (i : Nat) : ℚ :=
  let k := gaussKernel1D r
  let x : Int := Int.ofNat (i % g.width)
  let y : Int := Int.ofNat (i / g.width)
  ((List.range (2 * r + 1)).map (fun j =>
    k.getD j 0 * (g.sample (x + Int.ofNat j - Int.ofNat r) y : ℚ))).sum

/-- Horizontal 1-D Gaussian pass with replicate-edge border. -/
def blurH (r : Nat) (g : GrayBuffer) : QBuffer :=
  ⟨g.width, g.height, (List.range (g.width * g.height)).map (blurHAt r g)⟩

/-- Value of one output pixel of the vertical 1-D Gaussian pass. -/
def blurVAt (r : Nat) (q : QBuffer) (i : Nat) : ℚ :=
  let k := gaussKernel1D r
  let x : Int := Int.ofNat (i % q.width)
  let y : Int := Int.ofNat (i / q.width)
  ((List.range (2 * r + 1)).map (fun j =>
    k.getD j 0 * q.sample x (y + Int.ofNat j - Int.ofNat r))).sum

/-- Vertical 1-D Gaussian pass with replicate-edge border. -/
def blurV (r : Nat) (q : QBuffer) : QBuffer :=
  ⟨q.width, q.height, (List.range (q.width * q.height)).map (blurVAt r q)⟩

/-- Fixed 3×3 Gaussian smoothing kernel (binomial weights), the "fixed
aperture" blur the spec prescribes inside Sobel/Laplacian/Canny
(§4.3-§4.4). -/
def gauss3Kernel : List (List ℚ) :=
  [[1/16, 2/16, 1/16], [2/16, 4/16, 2/16], [1/16, 2/16, 1/16]]

/-- Fixed 3×3 Gaussian blur pass over a grayscale buffer. -/
def blur3 (g : GrayBuffer) : GrayBuffer :=
  (convolveNat g gauss3Kernel).emit

/-- Horizontal Sobel gradient kernel (spec §4.3). -/
def sobelXK : List (List ℚ) :=
  [[-1, 0, 1], [-2, 0, 2], [-1, 0, 1]]

/-- Vertical Sobel gradient kernel (spec §4.3). -/
def sobelYK : List (List ℚ) :=
  [[-1, -2, -1], [0, 0, 0], [1, 2, 1]]

/-- Horizontal Prewitt gradient kernel (uniform weights, spec §4.3). -/
def prewittXK : List (List ℚ) :=
  [[-1, 0, 1], [-1, 0, 1], [-1, 0, 1]]

/-- Vertical Prewitt gradient kernel (spec §4.3). -/
def prewittYK : List (List ℚ) :=
  [[-1, -1, -1], [0, 0, 0], [1, 1, 1]]

/-- Second-derivative (Laplacian) kernel (spec §4.3). -/
def lapKernel : List (List ℚ) :=
  [[0, 1, 0], [1, -4, 1], [0, 1, 0]]

/-- The grayscale operator: luma conversion emitted as RGBA (wrapper
`grayscale`: cvtColor RGBA→GRAY→RGBA). -/
def grayscaleOp (img : ImageData) : ImageData :=
  grayToRGBA (toGrayscale img)

/-- Sobel magnitude plane: grayscale → fixed 3×3 blur → Gx/Gy gradients →
per-pixel `convertScaleAbs` on each gradient → `addWeighted` 0.5/0.5
blend, exactly the call sequence of the wrapper's `sobel` (the numeric
primitives are modelled from the spec, §4.3/§6). -/
def sobelCombine (img : ImageData) : GrayBuffer :=
  let g := blur3 (toGrayscale img)
  let gx := convolveNat g sobelXK
  let gy := convolveNat g sobelYK
  { width := g.width, height := g.height,
    data := (List.range (g.width * g.height)).map (fun i =>
      addWeightedHalf (absSat8 (gx.data.getD i 0)) (absSat8 (gy.data.getD i 0))) }

/-- The Sobel operator: continuous magnitude emitted as RGBA. -/
def sobelMagImage (img : ImageData) : ImageData :=
  grayToRGBA (sobelCombine img)

/-- Modelled from the spec (§4.3): the standalone Gaussian blur operator:
grayscale conversion, then the separable 1-D kernel of the given radius
applied horizontally then vertically, emitted as RGBA (the reference
`EdgeDetector.gaussianBlur` source file is absent from the snapshot). -/
def gaussianBlurRef (img : ImageData) (r : Nat) : ImageData :=
  grayToRGBA ((blurV r (blurH r (toGrayscale img))).emit)

/-- Hard binarization against the intensity threshold: at or above the
threshold emits 255, below emits 0 (spec §4.3, Prewitt/Roberts). -/
def binarize (t : Nat) (m : ℚ) : Nat :=
  if (t : ℚ) ≤ m then 255 else 0

/-- Modelled from the spec (§4.3): Prewitt operator, identical structure
to Sobel but with Prewitt kernels and a hard-binarized magnitude (the
reference source file is absent from the snapshot). -/
def prewittModel (img : ImageData) (t : Nat) : ImageData :=
  let g := blur3 (toGrayscale img)
  let gx := convolveNat g prewittXK
  let gy := convolveNat g prewittYK
  grayToRGBA
    { width := g.width, height := g.height,
      data := (List.range (g.width * g.height)).map (fun i =>
        binarize t (|gx.data.getD i 0| / 2 + |gy.data.getD i 0| / 2)) }

/-- Modelled from the spec (§4.3): Roberts cross operator, two diagonal
differences over a 2×2 neighborhood, combined with the weighted-sum
convention and hard-binarized like Prewitt (the reference source file is
absent from the snapshot). -/
def robertsModel (img : ImageData) (t : Nat) : ImageData :=
  let g := toGrayscale img
  grayToRGBA
    { width := g.width, height := g.height,
      data := (List.range (g.width * g.height)).map (fun i =>
        let x : Int := Int.ofNat (i % g.width)
        let y : Int := Int.ofNat (i / g.width)
        let d1 : ℚ := (g.sample x y : ℚ) - (g.sample (x + 1) (y + 1) : ℚ)
        let d2 : ℚ := (g.sample (x + 1) y : ℚ) - (g.sample x (y + 1) : ℚ)
        binarize t (|d1| / 2 + |d2| / 2)) }

/-- Modelled from the spec (§4.3): Laplacian operator: grayscale → fixed
3×3 blur → second-derivative convolution → absolute value → emit. -/
def laplacianModel (img : ImageData) : ImageData :=
  let q := convolveNat (blur3 (toGrayscale img)) lapKernel
  grayToRGBA
    { width := q.width, height := q.height,
      data := q.data.map absSat8 }

/-- Modelled from the spec (§4.4): quantize the gradient direction
`atan2(Gy,Gx)` to the nearest of the four sectors 0°, 45°, 90°, 135°.
The sector boundaries at ±22.5° and ±67.5° have irrational tangents
(√2 ∓ 1), so the tests are phrased as equivalent comparisons of squares
of non-negative quantities: `ay < (√2-1)·ax ↔ (ax+ay)² < 2·ax²` and
`ay > (√2+1)·ax ↔ ay > ax ∧ (ay-ax)² > 2·ax²`. -/
def sqSector (gx gy : ℚ) : Nat :=
  let ax := |gx|
  let ay := |gy|
  if (ax + ay) ^ 2 < 2 * ax ^ 2 then 0
  else if ay > ax ∧ (ay - ax) ^ 2 > 2 * ax ^ 2 then 2
  else if 0 ≤ gx * gy then 1 else 3

/-- Offset to one of the two neighbors along a quantized gradient
direction (the other neighbor is its negation). -/
def sectorOffsets : Nat → Int × Int
  | 0 => (1, 0)
  | 1 => (1, 1)
  | 2 => (0, 1)
  | _ => (1, -1)

/-- The eight 8-connectivity neighbor offsets (spec §4.4, hysteresis). -/
def neighborOffsets : List (Int × Int) :=
  [(-1, -1), (0, -1), (1, -1), (-1, 0), (1, 0), (-1, 1), (0, 1), (1, 1)]

/-- Whether any in-bounds 8-connected neighbor of pixel `i` is set in
`p`. -/
def neighborHit (w h : Nat) (p : List Bool) (i : Nat) : Bool :=
  let x : Int := Int.ofNat (i % w)
  let y : Int := Int.ofNat (i / w)
  neighborOffsets.any (fun o =>
    let xn := x + o.1
    let yn := y + o.2
    decide (0 ≤ xn ∧ xn < (w : Int) ∧ 0 ≤ yn ∧ yn < (h : Int)) &&
      p.getD (yn.toNat * w + xn.toNat) false)

/-- One round of candidate promotion: a pixel becomes an edge if it
already is one, or if it is a candidate 8-connected to an edge pixel. -/
def hysteresisStep (w h : Nat) (cand : Nat → Bool) (p : List Bool) : List Bool :=
  (List.range (w * h)).map (fun i =>
    p.getD i false || (cand i && neighborHit w h p i))

/-- Iterate a function `n` times. -/
def iterN (f : List Bool → List Bool) : Nat → List Bool → List Bool
  | 0, p => p
  | n + 1, p => iterN f n (f p)

/-- Modelled from the spec (§4.4): hysteresis connectivity traversal —
the flood fill over candidate pixels seeded from strong edges, computed
as `w*h` rounds of promotion (enough rounds to reach the fixpoint of
transitive 8-connectivity). -/
def hysteresis (w h : Nat) (strong cand : Nat → Bool) : List Bool :=
  iterN (hysteresisStep w h cand) (w * h) ((List.range (w * h)).map strong)

/-- Modelled from the spec (§4.4): the staged Canny detector — grayscale
+ fixed 3×3 Gaussian blur, Sobel-style gradients, non-maximum
suppression along the quantized gradient direction, hysteresis
thresholding, binary emission.  Gradient magnitudes and thresholds are
compared through their squares (`√` is monotone on non-negatives, so
`mag ≥ th ↔ mag² ≥ th²`), which keeps every comparison exact over ℚ. -/
def cannyModel (img : ImageData) (low high : Nat) : ImageData :=
  let g := blur3 (toGrayscale img)
  let w := g.width
  let h := g.height
  let gx := convolveNat g sobelXK
  let gy := convolveNat g sobelYK
  let mag2 : List ℚ := (List.range (w * h)).map (fun i =>
    gx.data.getD i 0 ^ 2 + gy.data.getD i 0 ^ 2)
  let sec : List Nat := (List.range (w * h)).map (fun i =>
    sqSector (gx.data.getD i 0) (gy.data.getD i 0))
  let nms : List ℚ := (List.range (w * h)).map (fun i =>
    let x : Int := Int.ofNat (i % w)
    let y : Int := Int.ofNat (i / w)
    let o := sectorOffsets (sec.getD i 0)
    let x1 := x + o.1
    let y1 := y + o.2
    let x2 := x - o.1
    let y2 := y - o.2
    if 0 ≤ x1 ∧ x1 < (w : Int) ∧ 0 ≤ y1 ∧ y1 < (h : Int) ∧
        0 ≤ x2 ∧ x2 < (w : Int) ∧ 0 ≤ y2 ∧ y2 < (h : Int) then
      let m := mag2.getD i 0
      if mag2.getD (y1.toNat * w + x1.toNat) 0 ≤ m ∧
          mag2.getD (y2.toNat * w + x2.toNat) 0 ≤ m then m else 0
    else 0)
  let strong : Nat → Bool := fun i => decide (((high : ℚ)) ^ 2 ≤ nms.getD i 0)
  let cand : Nat → Bool := fun i =>
    decide (((low : ℚ)) ^ 2 ≤ nms.getD i 0 ∧ nms.getD i 0 < ((high : ℚ)) ^ 2)
  let promoted := hysteresis w h strong cand
  grayToRGBA
    { width := w, height := h,
      data := (List.range (w * h)).map (fun i =>
        if promoted.getD i false then 255 else 0) }

/-- Extract one channel of an RGBA buffer as a grayscale plane. -/
def channelAt (img : ImageData) (c : Nat) : GrayBuffer :=
  { width := img.width, height := img.height,
    data := (List.range (img.width * img.height)).map (fun i =>
      img.data.getD (4 * i + c) 0) }

/-- Modelled from the spec (§6): the accelerated collaborator's
`GaussianBlur` applied directly to the RGBA buffer (the wrapper passes
the RGBA source without a grayscale conversion): each channel is blurred
separately with the separable kernel of radius `ksize / 2`. -/
def rgbaGaussianBlur (img : ImageData) (ksize : Nat) : ImageData :=
  let r := ksize / 2
  let ch := fun c => (blurV r (blurH r (channelAt img c))).emit
  { width := img.width, height := img.height,
    data := (List.range (img.width * img.height * 4)).map (fun j =>
      (ch (j % 4)).data.getD (j / 4) 0) }

/-- `EdgeDetectionMethod` from `types.ts`. -/
inductive Method where
  | sobel
  | canny
  | roberts
  | prewitt
  | laplacian
  | grayscale
deriving DecidableEq, Repr

/-- `ProcessingMode` from `types.ts`. -/
inductive Mode where
  | opencv
  | typescript
deriving DecidableEq, Repr

/-- `EdgeDetectionConfig` from `types.ts`; `threshold` and `blurAmount`
come from integer slider values (intensity cutoff and radius, both
non-negative per spec §3). -/
structure Config where
  threshold : Nat
  blurAmount : Nat
  method : Method
  mode : Mode
deriving DecidableEq, Repr

/-- The error taxonomy of spec §7. -/
inductive ProcError where
  | backendNotReady
  | invalidThresholds
  | invalidDimensions
  | invalidKernel
  | unsupportedOperator
deriving DecidableEq, Repr

/-- Which backend executes a call. -/
inductive BackendTag where
  | reference
  | accelerated
deriving DecidableEq, Repr

/-- One processing call the driver can issue per frame, with its
parameters: `cv*` are `OpenCVProcessor` (accelerated) calls, `ts*` are
`EdgeDetector` (reference) calls, as invoked in `processFrame`
(`app.ts` lines 339-404). -/
inductive OpCall where
  | cvGaussianBlur (ksize : Nat)
  | cvSobel
  | cvCanny (low high : Nat)
  | cvLaplacian
  | cvGrayscale
  | tsGaussianBlur (radius : Nat)
  | tsSobel (t : Nat)
  | tsCanny (t : Nat)
  | tsRoberts (t : Nat)
  | tsPrewitt (t : Nat)
  | tsLaplacian (t : Nat)
deriving DecidableEq, Repr

/-- The backend a call executes on. -/
def OpCall.backend : OpCall → BackendTag
  | .cvGaussianBlur _ | .cvSobel | .cvCanny _ _ | .cvLaplacian | .cvGrayscale =>
      .accelerated
  | _ => .reference

/-- Execute one call.  Every accelerated (`OpenCVProcessor`) method
begins `if (!this.isReady) throw new Error('OpenCV not initialized')`
and performs no other validation; the reference (`EdgeDetector`)
operators are modelled from spec §4.1: they fail with
`InvalidDimensions` when the buffer length does not match the declared
dimensions. -/
def runCall (ready : Bool) (c : OpCall) (img : ImageData) :
    Except ProcError ImageData :=
  match c with
  | .cvGaussianBlur k =>
      if ready then .ok (rgbaGaussianBlur img k) else .error .backendNotReady
  | .cvSobel =>
      if ready then .ok (sobelMagImage img) else .error .backendNotReady
  | .cvCanny low high =>
      if ready then .ok (cannyModel img low high) else .error .backendNotReady
  | .cvLaplacian =>
      if ready then .ok (laplacianModel img) else .error .backendNotReady
  | .cvGrayscale =>
      if ready then .ok (grayscaleOp img) else .error .backendNotReady
  | .tsGaussianBlur r =>
      if img.valid then .ok (gaussianBlurRef img r) else .error .invalidDimensions
  | .tsSobel _ =>
      if img.valid then .ok (sobelMagImage img) else .error .invalidDimensions
  | .tsCanny t =>
      if img.valid then .ok (cannyModel img t (2 * t)) else .error .invalidDimensions
  | .tsRoberts t =>
      if img.valid then .ok (robertsModel img t) else .error .invalidDimensions
  | .tsPrewitt t =>
      if img.valid then .ok (prewittModel img t) else .error .invalidDimensions
  | .tsLaplacian _ =>
      if img.valid then .ok (laplacianModel img) else .error .invalidDimensions

/-- The direct embedding of the wrapper's `canny` (opencv-processor):
only the readiness flag is checked; the thresholds are handed to the
library unchanged. -/
def OpenCVProcessor.cannyCall (isReady : Bool) (img : ImageData)
    (low high : Nat) : Except ProcError ImageData :=
  if isReady then .ok (cannyModel img low high) else .error .backendNotReady

/-- The reference-blur pre-pass the driver issues when `blurAmount > 0`
(`EdgeDetector.gaussianBlur(imageData, blurAmount)`). -/
def tsBlurList (cfg : Config) : List OpCall :=
  if 0 < cfg.blurAmount then [.tsGaussianBlur cfg.blurAmount] else []

/-- The pre-pass calls of one frame, from `processFrame`: on the
accelerated path a `gaussianBlur(imageData, blurAmount * 2 + 1)` when
`blurAmount > 0`, plus — only for `roberts`/`prewitt`, which fall back
to the reference implementation — an additional reference blur; on the
reference path just the reference blur. -/
def preludeCalls (cfg : Config) (ready : Bool) : List OpCall :=
  if cfg.mode = Mode.opencv ∧ ready = true then
    (if 0 < cfg.blurAmount then [.cvGaussianBlur (cfg.blurAmount * 2 + 1)] else [])
      ++ (match cfg.method with
          | .roberts | .prewitt => tsBlurList cfg
          | _ => [])
  else tsBlurList cfg

/-- The edge-operator call of one frame, from the two `switch` blocks of
`processFrame`: the accelerated branch is taken only under the explicit
state check `config.mode === 'opencv' && opencvProcessor.ready()`;
`roberts`/`prewitt` always go to the reference implementation; on the
reference path `grayscale` falls through to Sobel. -/
def mainCall (cfg : Config) (ready : Bool) : OpCall :=
  if cfg.mode = Mode.opencv ∧ ready = true then
    match cfg.method with
    | .sobel => .cvSobel
    | .canny => .cvCanny cfg.threshold (cfg.threshold * 2)
    | .laplacian => .cvLaplacian
    | .grayscale => .cvGrayscale
    | .roberts => .tsRoberts cfg.threshold
    | .prewitt => .tsPrewitt cfg.threshold
  else
    match cfg.method with
    | .sobel => .tsSobel cfg.threshold
    | .canny => .tsCanny cfg.threshold
    | .roberts => .tsRoberts cfg.threshold
    | .prewitt => .tsPrewitt cfg.threshold
    | .laplacian => .tsLaplacian cfg.threshold
    | .grayscale => .tsSobel cfg.threshold

/-- All processing calls of one frame, in issue order. -/
def dispatchCalls (cfg : Config) (ready : Bool) : List OpCall :=
  preludeCalls cfg ready ++ [mainCall cfg ready]

/-- Run a call sequence, threading the buffer; the first error aborts the
chain (a thrown exception skips the rest of the `try` block). -/
def runCalls (ready : Bool) : List OpCall → ImageData → Except ProcError ImageData
  | [], img => .ok img
  | c :: cs, img =>
    match runCall ready c img with
    | .ok im => runCalls ready cs im
    | .error e => .error e

/-- One frame's processing: blur pre-pass then edge operator. -/
def processPipeline (cfg : Config) (ready : Bool) (img : ImageData) :
    Except ProcError ImageData :=
  runCalls ready (dispatchCalls cfg ready) img

/-- The observable outcome of one `processFrame` tick: the buffer handed
to the renderer (if any), the error propagated to `processFrame`'s
caller (if any), and whether the next animation frame is requested. -/
structure FrameOutcome where
  rendered : Option ImageData
  surfacedError : Option ProcError
  scheduledNext : Bool
deriving DecidableEq, Repr

/-- The `processFrame` tick from `app.ts`: an early return when
processing is stopped; otherwise the whole pipeline runs inside
`try { ... } catch (error) { console.error(...) }` — a processing error
is logged and swallowed, never rethrown — and `requestAnimationFrame`
is called afterwards in either case. -/
def processFrame (cfg : Config) (ready : Bool) (isProcessing : Bool)
    (img : ImageData) : FrameOutcome :=
  if isProcessing = false then ⟨none, none, false⟩
  else
    match processPipeline cfg ready img with
    | .ok r => ⟨some r, none, true⟩
    | .error _ => ⟨none, none, true⟩

/-- `selectAlgorithm` from `app.ts`: selecting `grayscale` while the mode
is not `opencv` is refused (alert + early return leaves the
configuration unchanged). -/
def selectAlgorithm (cfg : Config) (m : Method) : Config :=
  if m = Method.grayscale ∧ cfg.mode ≠ Mode.opencv then cfg
  else { cfg with method := m }

/-- The operator capability set of spec §8's dimension property. -/
inductive Operator where
  | grayscale
  | gaussianBlur
  | sobel
  | canny
  | laplacian
  | roberts
  | prewitt
deriving DecidableEq, Repr

/-- Apply one operator with a threshold `t` and blur radius `r`. -/
def applyOperator : Operator → Nat → Nat → ImageData → ImageData
  | .grayscale, _, _, img => grayscaleOp img
  | .gaussianBlur, _, r, img => gaussianBlurRef img r
  | .sobel, _, _, img => sobelMagImage img
  | .canny, t, _, img => cannyModel img t (2 * t)
  | .laplacian, _, _, img => laplacianModel img
  | .roberts, t, _, img => robertsModel img t
  | .prewitt, t, _, img => prewittModel img t

/-- A concrete valid 2×2 RGBA test buffer. -/
def img2x2 : ImageData :=
  ⟨2, 2, [10, 20, 30, 255, 200, 150, 100, 255, 0, 0, 0, 255, 255, 255, 255, 255]⟩

/-- A concrete malformed buffer: declared 2×1 but carrying only one
pixel's worth of samples. -/
def badImg : ImageData :=
  ⟨2, 1, [1, 2, 3, 255]⟩

/-! ### Basic lemmas about the buffer representation -/

lemma getD_map_range {α : Type} (f : Nat → α) (d : α) {n i : Nat} (h : i < n) :
    ((List.range n).map f).getD i d = f i := by
  rw [List.getD_eq_getElem ((List.range n).map f) d (by simpa using h)]
  simp

lemma clampIdx_of_lt {x n : Nat} (h : x < n) : clampIdx (Int.ofNat x) n = x := by
  simp only [clampIdx, Int.ofNat_eq_coe]
  omega

lemma graySample_interior (g : GrayBuffer) {i : Nat}
    (h : i < g.width * g.height) :
    g.sample (Int.ofNat (i % g.width)) (Int.ofNat (i / g.width)) =
      g.data.getD i 0 := by
  have hw : 0 < g.width := by
    rcases Nat.eq_zero_or_pos g.width with h0 | h0
    · rw [h0] at h; simp at h
    · exact h0
  have hmod : i % g.width < g.width := Nat.mod_lt _ hw
  have hdiv : i / g.width < g.height := by
    rw [Nat.div_lt_iff_lt_mul hw]
    calc i < g.width * g.height := h
    _ = g.height * g.width := Nat.mul_comm _ _
  unfold GrayBuffer.sample
  rw [clampIdx_of_lt hmod, clampIdx_of_lt hdiv]
  have h2 : i / g.width * g.width + i % g.width = i := Nat.div_add_mod' i g.width
  rw [h2]

lemma qSample_interior (q : QBuffer) {i : Nat}
    (h : i < q.width * q.height) :
    q.sample (Int.ofNat (i % q.width)) (Int.ofNat (i / q.width)) =
      q.data.getD i 0 := by
  have hw : 0 < q.width := by
    rcases Nat.eq_zero_or_pos q.width with h0 | h0
    · rw [h0] at h; simp at h
    · exact h0
  have hmod : i % q.width < q.width := Nat.mod_lt _ hw
  have hdiv : i / q.width < q.height := by
    rw [Nat.div_lt_iff_lt_mul hw]
    calc i < q.width * q.height := h
    _ = q.height * q.width := Nat.mul_comm _ _
  unfold QBuffer.sample
  rw [clampIdx_of_lt hmod, clampIdx_of_lt hdiv]
  have h2 : i / q.width * q.width + i % q.width = i := Nat.div_add_mod' i q.width
  rw [h2]

lemma toGrayscale_getD_le (img : ImageData) (i : Nat) :
    (toGrayscale img).data.getD i 0 ≤ 255 := by
  unfold toGrayscale
  rcases lt_or_ge i (img.width * img.height) with h | h
  · rw [getD_map_range _ _ h]
    exact Nat.min_le_left _ _
  · rw [List.getD_eq_default]
    · exact Nat.zero_le _
    · simpa using h

lemma emit8_natCast {n : Nat} (h : n ≤ 255) : emit8 ((n : ℚ)) = n := by
  simp only [emit8, round_natCast]
  omega

/-! ### Driver routing and error-policy properties -/

/-- C4: for every configuration and readiness state, a frame whose method
is `roberts` or `prewitt` has its edge operator routed to the Reference
(TypeScript `EdgeDetector`) implementation — also when the Accelerated
backend is selected and ready. -/
theorem roberts_prewitt_always_route_to_reference :
    ∀ (cfg : Config) (ready : Bool),
      mainCall { cfg with method := Method.roberts } ready
          = OpCall.tsRoberts cfg.threshold
      ∧ mainCall { cfg with method := Method.prewitt } ready
          = OpCall.tsPrewitt cfg.threshold
      ∧ (mainCall { cfg with method := Method.roberts } ready).backend
          = BackendTag.reference
      ∧ (mainCall { cfg with method := Method.prewitt } ready).backend
          = BackendTag.reference := by
  intro cfg ready
  rcases cfg with ⟨t, b, m, mo⟩
  cases mo <;> cases ready <;> simp [mainCall, OpCall.backend]

/-- C10: with the Reference backend selected, method `grayscale` is not an
error and performs no grayscale conversion: the driver silently issues the
Sobel call instead, and `selectAlgorithm` refuses to select `grayscale`
while the mode is not `opencv`. -/
theorem typescript_grayscale_substitutes_sobel :
    ∀ (cfg : Config) (ready : Bool),
      mainCall { cfg with mode := Mode.typescript, method := Method.grayscale } ready
          = OpCall.tsSobel cfg.threshold
      ∧ (mainCall { cfg with mode := Mode.typescript, method := Method.grayscale }
          ready).backend = BackendTag.reference
      ∧ (∀ img : ImageData,
          runCall ready
              (mainCall { cfg with mode := Mode.typescript, method := Method.grayscale }
                ready) img
            = runCall ready (OpCall.tsSobel cfg.threshold) img)
      ∧ selectAlgorithm { cfg with mode := Mode.typescript } Method.grayscale
          = { cfg with mode := Mode.typescript } := by
  intro cfg ready
  have hmain : mainCall { cfg with mode := Mode.typescript, method := Method.grayscale }
      ready = OpCall.tsSobel cfg.threshold := by
    simp [mainCall]
  refine ⟨hmain, ?_, ?_, ?_⟩
  · rw [hmain]
    rfl
  · intro img
    rw [hmain]
  · simp [selectAlgorithm]

/-- C3: while the Accelerated backend is not ready, every direct
Accelerated call fails with the backend-not-ready error, and the driver's
explicit state check routes the whole frame to Reference calls only. -/
theorem backend_not_ready_fails_and_falls_back :
    ∀ (c : OpCall) (img : ImageData) (cfg : Config),
      (c.backend = BackendTag.accelerated →
        runCall false c img = Except.error ProcError.backendNotReady)
      ∧ (dispatchCalls cfg false).all
          (fun d => decide (d.backend = BackendTag.reference)) = true := by
  intro c img cfg
  constructor
  · intro hacc
    cases c <;> simp [OpCall.backend] at hacc <;> simp [runCall]
  · rcases cfg with ⟨t, b, m, mo⟩
    cases mo <;> cases m <;>
      by_cases hb : 0 < b <;>
        simp [dispatchCalls, preludeCalls, mainCall, tsBlurList, hb, OpCall.backend]

/-- Witness for C3 at a concrete accelerated call and configuration. -/
theorem backend_not_ready_fails_and_falls_back_witness :
    (OpCall.cvSobel.backend = BackendTag.accelerated
      ∧ runCall false OpCall.cvSobel img2x2 = Except.error ProcError.backendNotReady)
    ∧ (dispatchCalls ⟨40, 1, Method.sobel, Mode.opencv⟩ false).all
        (fun d => decide (d.backend = BackendTag.reference)) = true :=
  ⟨⟨rfl, (backend_not_ready_fails_and_falls_back OpCall.cvSobel img2x2
      ⟨40, 1, Method.sobel, Mode.opencv⟩).1 rfl⟩,
    (backend_not_ready_fails_and_falls_back OpCall.cvSobel img2x2
      ⟨40, 1, Method.sobel, Mode.opencv⟩).2⟩

/-- C9: every Accelerated Canny call the driver issues carries
`lowThreshold = threshold` and `highThreshold = threshold * 2`; hence
`low ≤ high`, with equality exactly when the configured threshold is 0. -/
theorem driver_canny_threshold_doubling :
    ∀ (cfg : Config) (ready : Bool) (low high : Nat),
      OpCall.cvCanny low high ∈ dispatchCalls cfg ready →
      low = cfg.threshold ∧ high = cfg.threshold * 2 ∧ low ≤ high
        ∧ (high = low ↔ cfg.threshold = 0) := by
  intro cfg ready low high hmem
  rcases cfg with ⟨t, b, m, mo⟩
  dsimp only at *
  simp only [dispatchCalls, List.mem_append, List.mem_singleton] at hmem
  rcases hmem with hpre | hmain
  · exfalso
    cases mo <;> cases ready <;> cases m <;>
      by_cases hb : 0 < b <;>
        simp [preludeCalls, tsBlurList, hb] at hpre
  · cases mo <;> cases ready <;> cases m <;> simp [mainCall] at hmain
    all_goals
      obtain ⟨rfl, rfl⟩ := hmain
      exact ⟨rfl, rfl, by omega, by omega⟩

/-- Witness for C9 at the default threshold 40 on the ready accelerated
path. -/
theorem driver_canny_threshold_doubling_witness :
    OpCall.cvCanny 40 80 ∈ dispatchCalls ⟨40, 0, Method.canny, Mode.opencv⟩ true
    ∧ (40 = 40 ∧ 80 = 40 * 2 ∧ 40 ≤ 80 ∧ (80 = 40 ↔ 40 = 0)) := by
  have hmem : OpCall.cvCanny 40 80
      ∈ dispatchCalls ⟨40, 0, Method.canny, Mode.opencv⟩ true := by decide
  exact ⟨hmem, driver_canny_threshold_doubling ⟨40, 0, Method.canny, Mode.opencv⟩
    true 40 80 hmem⟩

/-- C5 counterexample: on an initialized backend the Canny path accepts
the boundary case `highThreshold == lowThreshold` (50, 50) and returns a
result instead of raising `InvalidThresholds`. -/
theorem cv_canny_equal_thresholds_not_rejected :
    OpenCVProcessor.cannyCall true img2x2 50 50
        ≠ Except.error ProcError.invalidThresholds
      ∧ (OpenCVProcessor.cannyCall true img2x2 50 50).isOk = true := by
  constructor
  · intro hc
    have h : OpenCVProcessor.cannyCall true img2x2 50 50
        = Except.ok (cannyModel img2x2 50 50) := rfl
    rw [h] at hc
    exact Except.noConfusion hc
  · rfl

/-- C5 (amended): the Canny path performs no threshold validation at all:
with the backend initialized it accepts every `(low, high)` pair — also
`high ≤ low` — and hands the thresholds to the detector unchanged (no
swap, no clamp); its only error is the readiness failure. -/
theorem cv_canny_threshold_validation_absent :
    ∀ (img : ImageData) (low high : Nat),
      OpenCVProcessor.cannyCall true img low high
          = Except.ok (cannyModel img low high)
      ∧ OpenCVProcessor.cannyCall false img low high
          = Except.error ProcError.backendNotReady := by
  intro img low high
  exact ⟨rfl, rfl⟩

/-- C8 counterexample: a malformed frame (declared 2×1 with a one-pixel
sample array) makes the pipeline raise `InvalidDimensions`, yet the
`processFrame` tick surfaces no error to its caller — the catch block
swallows it — and still schedules the next frame. -/
theorem processing_error_suppressed :
    processPipeline ⟨40, 0, Method.sobel, Mode.typescript⟩ true badImg
        = Except.error ProcError.invalidDimensions
      ∧ processFrame ⟨40, 0, Method.sobel, Mode.typescript⟩ true true badImg
        = ⟨none, none, true⟩ :=
  ⟨rfl, rfl⟩

/-- C8 (amended): no processing error is fatal: every error raised while
a frame is processed is caught inside `processFrame` (logged, not
rethrown — so it never reaches the caller), and the per-frame loop
schedules the next frame regardless. -/
theorem frame_errors_nonfatal_loop_continues :
    ∀ (cfg : Config) (ready : Bool) (img : ImageData),
      (processFrame cfg ready true img).scheduledNext = true
      ∧ (processFrame cfg ready true img).surfacedError = none := by
  intro cfg ready img
  simp only [processFrame]
  cases h : processPipeline cfg ready img <;> simp [h]

/-! ### Dimension preservation and per-pixel operator semantics -/

/-- C2: every operator returns an RGBA buffer with the input's width and
height, fully filled (`length = width * height * 4`). -/
theorem edge_operators_preserve_dimensions :
    ∀ (op : Operator) (t r : Nat) (img : ImageData), img.valid →
      (applyOperator op t r img).width = img.width
      ∧ (applyOperator op t r img).height = img.height
      ∧ (applyOperator op t r img).data.length =
          (applyOperator op t r img).width * (applyOperator op t r img).height * 4 := by
  intro op t r img _hv
  cases op <;>
    refine ⟨rfl, rfl, ?_⟩ <;>
    simp [applyOperator, grayscaleOp, gaussianBlurRef, sobelMagImage, cannyModel,
      laplacianModel, robertsModel, prewittModel, grayToRGBA, sobelCombine]

/-- Witness for C2: the Canny operator on the concrete valid 2×2 buffer. -/
theorem edge_operators_preserve_dimensions_witness :
    img2x2.valid
    ∧ ((applyOperator Operator.canny 50 0 img2x2).width = img2x2.width
      ∧ (applyOperator Operator.canny 50 0 img2x2).height = img2x2.height
      ∧ (applyOperator Operator.canny 50 0 img2x2).data.length =
          (applyOperator Operator.canny 50 0 img2x2).width *
            (applyOperator Operator.canny 50 0 img2x2).height * 4) :=
  ⟨by decide, edge_operators_preserve_dimensions Operator.canny 50 0 img2x2 (by decide)⟩

lemma grayToRGBA_getD_red (g : GrayBuffer) {i : Nat} (h : i < g.width * g.height) :
    (grayToRGBA g).data.getD (4 * i) 0 = g.data.getD i 0 := by
  unfold grayToRGBA
  have h4 : 4 * i < g.width * g.height * 4 := by omega
  rw [getD_map_range _ _ h4]
  have hmod : (4 * i) % 4 = 0 := Nat.mul_mod_right 4 i
  have hdiv : 4 * i / 4 = i := Nat.mul_div_cancel_left i (by norm_num)
  simp [hmod, hdiv]

lemma sobelCombine_getD (img : ImageData) {i : Nat}
    (h : i < img.width * img.height) :
    (sobelCombine img).data.getD i 0
      = addWeightedHalf
          (absSat8 ((convolveNat (blur3 (toGrayscale img)) sobelXK).data.getD i 0))
          (absSat8 ((convolveNat (blur3 (toGrayscale img)) sobelYK).data.getD i 0)) := by
  unfold sobelCombine
  exact getD_map_range _ _
    (show i < (blur3 (toGrayscale img)).width * (blur3 (toGrayscale img)).height from h)

/-- C6: the value the Sobel operator emits at each pixel (red channel of
pixel `i`) is the 8-bit emission of `0.5*|Gx| + 0.5*|Gy|` over the
absolute gradient values at that pixel — the weighted-sum convention,
not the Euclidean norm. -/
theorem sobel_magnitude_weighted_sum :
    ∀ (img : ImageData) (i : Nat), i < img.width * img.height →
      (sobelMagImage img).data.getD (4 * i) 0
        = emit8 ((1 / 2 : ℚ) *
              (absSat8 ((convolveNat (blur3 (toGrayscale img)) sobelXK).data.getD i 0) : ℚ)
            + (1 / 2 : ℚ) *
              (absSat8 ((convolveNat (blur3 (toGrayscale img)) sobelYK).data.getD i 0) : ℚ)) := by
  intro img i h
  rw [show sobelMagImage img = grayToRGBA (sobelCombine img) from rfl]
  rw [grayToRGBA_getD_red _
    (show i < (sobelCombine img).width * (sobelCombine img).height from h)]
  rw [sobelCombine_getD img h]
  rfl

/-- Witness for C6 at pixel 0 of the concrete 2×2 buffer. -/
theorem sobel_magnitude_weighted_sum_witness :
    0 < img2x2.width * img2x2.height
    ∧ (sobelMagImage img2x2).data.getD (4 * 0) 0
        = emit8 ((1 / 2 : ℚ) *
              (absSat8 ((convolveNat (blur3 (toGrayscale img2x2)) sobelXK).data.getD 0 0) : ℚ)
            + (1 / 2 : ℚ) *
              (absSat8 ((convolveNat (blur3 (toGrayscale img2x2)) sobelYK).data.getD 0 0) : ℚ)) :=
  ⟨by decide, sobel_magnitude_weighted_sum img2x2 0 (by decide)⟩

/-! ### Radius-zero Gaussian blur -/

lemma gaussKernel1D_zero : gaussKernel1D 0 = [1] := by
  norm_num [gaussKernel1D, expQ, gaussSigma, List.range_succ, Nat.factorial]

lemma blurHAt_zero (g : GrayBuffer) {i : Nat} (h : i < g.width * g.height) :
    blurHAt 0 g i = (g.data.getD i 0 : ℚ) := by
  simp only [blurHAt, gaussKernel1D_zero]
  rw [show 2 * 0 + 1 = 1 from rfl, show List.range 1 = [0] from rfl]
  simp only [List.map_cons, List.map_nil, List.sum_cons, List.sum_nil, add_zero]
  rw [show ([1] : List ℚ).getD 0 0 = 1 from rfl, one_mul]
  rw [show Int.ofNat 0 = 0 from rfl, add_zero, sub_zero]
  rw [graySample_interior g h]

lemma blurVAt_zero (q : QBuffer) {i : Nat} (h : i < q.width * q.height) :
    blurVAt 0 q i = q.data.getD i 0 := by
  simp only [blurVAt, gaussKernel1D_zero]
  rw [show 2 * 0 + 1 = 1 from rfl, show List.range 1 = [0] from rfl]
  simp only [List.map_cons, List.map_nil, List.sum_cons, List.sum_nil, add_zero]
  rw [show ([1] : List ℚ).getD 0 0 = 1 from rfl, one_mul]
  rw [show Int.ofNat 0 = 0 from rfl, add_zero, sub_zero]
  rw [qSample_interior q h]

lemma blur_zero_emit (w h : Nat) (d : List Nat) (hlen : d.length = w * h)
    (hle : ∀ i, d.getD i 0 ≤ 255) :
    (blurV 0 (blurH 0 (GrayBuffer.mk w h d))).emit = GrayBuffer.mk w h d := by
  show GrayBuffer.mk w h
      (((List.range (w * h)).map (blurVAt 0 (blurH 0 (GrayBuffer.mk w h d)))).map emit8)
    = GrayBuffer.mk w h d
  refine congrArg (GrayBuffer.mk w h) ?_
  rw [List.map_map]
  apply List.ext_getElem
  · simp [hlen]
  · intro i h1 h2
    have hi : i < w * h := by simpa using h1
    simp only [List.getElem_map, List.getElem_range, Function.comp_apply]
    rw [blurVAt_zero (blurH 0 (GrayBuffer.mk w h d))
      (show i < (blurH 0 (GrayBuffer.mk w h d)).width *
          (blurH 0 (GrayBuffer.mk w h d)).height from hi)]
    rw [show (blurH 0 (GrayBuffer.mk w h d)).data
        = (List.range (w * h)).map (blurHAt 0 (GrayBuffer.mk w h d)) from rfl]
    rw [getD_map_range _ _ hi]
    rw [blurHAt_zero (GrayBuffer.mk w h d)
      (show i < (GrayBuffer.mk w h d).width * (GrayBuffer.mk w h d).height from hi)]
    rw [emit8_natCast (hle i)]
    exact List.getD_eq_getElem d 0 h2

/-- C7: the Gaussian blur operator at radius 0 is the identity transform:
its output equals the grayscale-converted input, pixel for pixel. -/
theorem gaussian_blur_radius_zero_identity :
    ∀ img : ImageData, gaussianBlurRef img 0 = grayscaleOp img := by
  intro img
  unfold gaussianBlurRef grayscaleOp
  refine congrArg grayToRGBA ?_
  have hlen : (toGrayscale img).data.length = img.width * img.height := by
    simp [toGrayscale]
  exact blur_zero_emit img.width img.height (toGrayscale img).data hlen
    (toGrayscale_getD_le img)

end EdgeDetection
